import Mathlib

/-!
Verification of the investment-wizard ingestion-and-enrichment pipeline.

Shallow embedding of the pipeline code (src/src/tasks.py, src/src/llm_service.py,
src/src/scrapers.py, src/src/email_service.py) in Lean 4, together with proofs of
the spec claims about it.

Modelling conventions:
- Python strings are Lean `String`s; helper functions mirror the Python string
  methods used by the code (ASCII scope: the code only manipulates ASCII URLs,
  prefixes and JSON keys, so `lower`/`strip` are modelled on ASCII).
- Machine floats are modelled as exact scaled decimals (`PyFloatVal`,
  `num / 10^exp`); every numeric literal appearing in the code and in the
  claims is exactly representable and no claim depends on rounding.
- Fallible Python code (raising) is modelled with `Except`; external collaborators
  (network fetches, the LLM provider, the Django cache backend) are passed in as
  explicit values or oracle functions.
- Hash functions used by the code (hashlib.sha256, hashlib.md5) are implemented
  bit-faithfully over byte lists, with 32-bit words as `Nat` reduced mod 2^32.
-/

namespace IW

instance {ε α : Type} [DecidableEq ε] [DecidableEq α] : DecidableEq (Except ε α) := fun x y =>
  match x, y with
  | .error a, .error b =>
    if h : a = b then isTrue (by rw [h]) else isFalse (by intro hc; cases hc; exact h rfl)
  | .error _, .ok _ => isFalse (by intro h; cases h)
  | .ok _, .error _ => isFalse (by intro h; cases h)
  | .ok a, .ok b =>
    if h : a = b then isTrue (by rw [h]) else isFalse (by intro hc; cases hc; exact h rfl)

/-! ## Python-style string helpers (ASCII scope) -/

/-- Python `str.lower()` restricted to ASCII (the code lowers URL schemes/hosts). -/
def pyLowerChar (c : Char) : Char :=
  if c.toNat ≥ 65 ∧ c.toNat ≤ 90 then Char.ofNat (c.toNat + 32) else c

def pyLower (s : String) : String := String.mk (s.data.map pyLowerChar)

/-- Python whitespace characters stripped by `str.strip()` (ASCII scope). -/
def pyIsSpace (c : Char) : Bool :=
  c = ' ' ∨ c = '\t' ∨ c = '\n' ∨ c.toNat = 13 ∨ c.toNat = 11 ∨ c.toNat = 12

def pyStripList (p : Char → Bool) (l : List Char) : List Char :=
  ((l.dropWhile p).reverse.dropWhile p).reverse

/-- Python `str.strip()` (both ends, whitespace). -/
def pyStrip (s : String) : String := String.mk (pyStripList pyIsSpace s.data)

/-- Python `str.lstrip(chars)` for a character predicate. -/
def pyLstrip (p : Char → Bool) (s : String) : String := String.mk (s.data.dropWhile p)

/-- Python `str.rstrip(chars)` for a character predicate. -/
def pyRstrip (p : Char → Bool) (s : String) : String :=
  String.mk (s.data.reverse.dropWhile p).reverse

/-- Python `str.replace(c, "")`: remove every occurrence of one character. -/
def pyRemoveChar (c : Char) (s : String) : String :=
  String.mk (s.data.filter (fun x => x ≠ c))

/-- Python `str.find(c)` for a single character: first index, or none. -/
def pyFindChar (c : Char) (l : List Char) : Option Nat :=
  l.findIdx? (fun x => x = c)

/-- Python `str.find(c, start)`: first index at or after `start`, or none. -/
def pyFindCharFrom (c : Char) (start : Nat) (l : List Char) : Option Nat :=
  match (l.drop start).findIdx? (fun x => x = c) with
  | Option.none => Option.none
  | some i => some (start + i)

/-- Python `str.rfind(c)`: last index, or none. -/
def pyRfindChar (c : Char) (l : List Char) : Option Nat :=
  match (l.reverse.findIdx? (fun x => x = c)) with
  | Option.none => Option.none
  | some i => some (l.length - 1 - i)

/-- Python `c in s` for a single character. -/
def pyContainsChar (c : Char) (s : String) : Bool := s.data.any (fun x => x = c)

/-- Python `sub in s` substring containment. -/
def listContainsSub (sub : List Char) : List Char → Bool
  | [] => sub.isEmpty
  | c :: rest => sub.isPrefixOf (c :: rest) || listContainsSub sub rest

def pyContainsSub (sub s : String) : Bool := listContainsSub sub.data s.data

/-- Python `s.startswith(p)`. -/
def pyStartswith (s p : String) : Bool := p.data.isPrefixOf s.data

/-- Python `s.endswith(p)` for a single character. -/
def pyEndswithChar (s : String) (c : Char) : Bool :=
  match s.data.reverse with
  | [] => false
  | x :: _ => x = c

/-- Python `s.split(sep, 1)` on a single character: split at the first occurrence. -/
def pySplitOnce (c : Char) (s : String) : Option (String × String) :=
  match pyFindChar c s.data with
  | Option.none => Option.none
  | some i => some (String.mk (s.data.take i), String.mk (s.data.drop (i + 1)))

/-- Python `s.split('\n')` (the exact single-character split used by the code). -/
def splitLinesGo (acc : List Char) : List Char → List String
  | [] => [String.mk acc.reverse]
  | c :: rest =>
    if c = '\n' then String.mk acc.reverse :: splitLinesGo [] rest
    else splitLinesGo (c :: acc) rest

def pySplitLines (s : String) : List String := splitLinesGo [] s.data

/-- Python slicing `s[:i]` and `s[i:]`. -/
def pyTake (s : String) (i : Nat) : String := String.mk (s.data.take i)

def pyDrop (s : String) (i : Nat) : String := String.mk (s.data.drop i)

/-! ## Byte-level hashing

`hashlib.sha256` / `hashlib.md5` as used by `tasks.hash_url` and
`LLMService._get_cache_key`. Bytes are `Nat`s < 256; 32-bit words are `Nat`s
reduced mod 2^32. -/

def w32 : Nat := 4294967296

def add32 (a b : Nat) : Nat := (a + b) % w32

def xor32 (a b : Nat) : Nat := a ^^^ b

def and32 (a b : Nat) : Nat := a &&& b

def or32 (a b : Nat) : Nat := a ||| b

def not32 (a : Nat) : Nat := (w32 - 1) - (a % w32)

/-- Right rotation of a 32-bit word. -/
def rotr32 (x k : Nat) : Nat := (x / 2 ^ k) + (x % 2 ^ k) * 2 ^ (32 - k)

/-- Left rotation of a 32-bit word (input reduced mod 2^32 first). -/
def rotl32 (x k : Nat) : Nat := rotr32 (x % w32) (32 - k % 32)

def shr32 (x k : Nat) : Nat := x / 2 ^ k

/-- UTF-8 encoding of a character as byte values (Python `str.encode('utf-8')`). -/
def utf8EncodeChar (c : Char) : List Nat :=
  let n := c.toNat
  if n < 128 then [n]
  else if n < 2048 then [192 + n / 64, 128 + n % 64]
  else if n < 65536 then [224 + n / 4096, 128 + n / 64 % 64, 128 + n % 64]
  else [240 + n / 262144, 128 + n / 4096 % 64, 128 + n / 64 % 64, 128 + n % 64]

def utf8Encode (s : String) : List Nat := s.data.flatMap utf8EncodeChar

def hexDigit (n : Nat) : Char :=
  if n < 10 then Char.ofNat (48 + n) else Char.ofNat (87 + n)

def byteToHex (b : Nat) : List Char := [hexDigit (b / 16 % 16), hexDigit (b % 16)]

/-- Split a byte list into 64-byte blocks (fuel-based so it kernel-reduces). -/
def chunk64F : Nat → List Nat → List (List Nat)
  | _, [] => []
  | 0, _ => []
  | Nat.succ f, l => l.take 64 :: chunk64F f (l.drop 64)

def chunk64 (l : List Nat) : List (List Nat) := chunk64F l.length l

def chunk4 : List Nat → List (List Nat)
  | b0 :: b1 :: b2 :: b3 :: rest => [b0, b1, b2, b3] :: chunk4 rest
  | _ => []

/-! ### SHA-256 (FIPS 180-4), big-endian -/

def sha256K : List Nat :=
  [1116352408, 1899447441, 3049323471, 3921009573, 961987163, 1508970993, 2453635748, 2870763221,
   3624381080, 310598401, 607225278, 1426881987, 1925078388, 2162078206, 2614888103, 3248222580,
   3835390401, 4022224774, 264347078, 604807628, 770255983, 1249150122, 1555081692, 1996064986,
   2554220882, 2821834349, 2952996808, 3210313671, 3336571891, 3584528711, 113926993, 338241895,
   666307205, 773529912, 1294757372, 1396182291, 1695183700, 1986661051, 2177026350, 2456956037,
   2730485921, 2820302411, 3259730800, 3345764771, 3516065817, 3600352804, 4094571909, 275423344,
   430227734, 506948616, 659060556, 883997877, 958139571, 1322822218, 1537002063, 1747873779,
   1955562222, 2024104815, 2227730452, 2361852424, 2428436474, 2756734187, 3204031479, 3329325298]

structure Sha256State where
  a : Nat
  b : Nat
  c : Nat
  d : Nat
  e : Nat
  f : Nat
  g : Nat
  h : Nat
deriving DecidableEq

def sha256H0 : Sha256State :=
  ⟨1779033703, 3144134277, 1013904242, 2773480762, 1359893119, 2600822924, 528734635, 1541459225⟩

def bsig0 (x : Nat) : Nat := xor32 (xor32 (rotr32 x 2) (rotr32 x 13)) (rotr32 x 22)

def bsig1 (x : Nat) : Nat := xor32 (xor32 (rotr32 x 6) (rotr32 x 11)) (rotr32 x 25)

def ssig0 (x : Nat) : Nat := xor32 (xor32 (rotr32 x 7) (rotr32 x 18)) (shr32 x 3)

def ssig1 (x : Nat) : Nat := xor32 (xor32 (rotr32 x 17) (rotr32 x 19)) (shr32 x 10)

def chF (x y z : Nat) : Nat := xor32 (and32 x y) (and32 (not32 x) z)

def majF (x y z : Nat) : Nat := xor32 (xor32 (and32 x y) (and32 x z)) (and32 y z)

def sha256ScheduleGo (ws : List Nat) : Nat → List Nat
  | 0 => ws
  | Nat.succ i =>
    let n := ws.length
    let w := add32 (add32 (ssig1 (ws.getD (n - 2) 0)) (ws.getD (n - 7) 0))
                   (add32 (ssig0 (ws.getD (n - 15) 0)) (ws.getD (n - 16) 0))
    sha256ScheduleGo (ws ++ [w]) i

/-- Extend a 16-word block to the 64-word message schedule. -/
def sha256Schedule (block : List Nat) : List Nat := sha256ScheduleGo block 48

def sha256Round (st : Sha256State) (k w : Nat) : Sha256State :=
  let t1 := add32 (add32 st.h (bsig1 st.e)) (add32 (chF st.e st.f st.g) (add32 k w))
  let t2 := add32 (bsig0 st.a) (majF st.a st.b st.c)
  ⟨add32 t1 t2, st.a, st.b, st.c, add32 st.d t1, st.e, st.f, st.g⟩

def sha256Compress (st : Sha256State) (block : List Nat) : Sha256State :=
  let ws := sha256Schedule block
  let fin := (sha256K.zip ws).foldl (fun s kw => sha256Round s kw.1 kw.2) st
  ⟨add32 st.a fin.a, add32 st.b fin.b, add32 st.c fin.c, add32 st.d fin.d,
   add32 st.e fin.e, add32 st.f fin.f, add32 st.g fin.g, add32 st.h fin.h⟩

/-- Big-endian 4-byte group to 32-bit word. -/
def word32OfBytesBE : List Nat → Nat
  | [b0, b1, b2, b3] => ((b0 * 256 + b1) * 256 + b2) * 256 + b3
  | _ => 0

/-- SHA-256 padding: 0x80, zeros, 64-bit big-endian bit length. -/
def sha256Pad (msg : List Nat) : List Nat :=
  let len := msg.length
  let bitLen := len * 8
  let padZeros := (64 - ((len + 9) % 64)) % 64
  let lenBytes := (List.range 8).map (fun i => bitLen / 2 ^ (8 * (7 - i)) % 256)
  msg ++ [128] ++ List.replicate padZeros 0 ++ lenBytes

def bytesOfWord32BE (w : Nat) : List Nat :=
  [w / 16777216 % 256, w / 65536 % 256, w / 256 % 256, w % 256]

def sha256Bytes (msg : List Nat) : List Nat :=
  let blocks := chunk64 (sha256Pad msg)
  let st := blocks.foldl (fun s blk => sha256Compress s ((chunk4 blk).map word32OfBytesBE)) sha256H0
  bytesOfWord32BE st.a ++ bytesOfWord32BE st.b ++ bytesOfWord32BE st.c ++ bytesOfWord32BE st.d ++
  bytesOfWord32BE st.e ++ bytesOfWord32BE st.f ++ bytesOfWord32BE st.g ++ bytesOfWord32BE st.h

/-- `hashlib.sha256(s.encode('utf-8')).hexdigest()`. -/
def sha256Hex (s : String) : String :=
  String.mk ((sha256Bytes (utf8Encode s)).flatMap byteToHex)

/-! ### MD5 (RFC 1321), little-endian -/

def md5K : List Nat :=
  [3614090360, 3905402710, 606105819, 3250441966, 4118548399, 1200080426, 2821735955, 4249261313,
   1770035416, 2336552879, 4294925233, 2304563134, 1804603682, 4254626195, 2792965006, 1236535329,
   4129170786, 3225465664, 643717713, 3921069994, 3593408605, 38016083, 3634488961, 3889429448,
   568446438, 3275163606, 4107603335, 1163531501, 2850285829, 4243563512, 1735328473, 2368359562,
   4294588738, 2272392833, 1839030562, 4259657740, 2763975236, 1272893353, 4139469664, 3200236656,
   681279174, 3936430074, 3572445317, 76029189, 3654602809, 3873151461, 530742520, 3299628645,
   4096336452, 1126891415, 2878612391, 4237533241, 1700485571, 2399980690, 4293915773, 2240044497,
   1873313359, 4264355552, 2734768916, 1309151649, 4149444226, 3174756917, 718787259, 3951481745]

def md5S : List Nat :=
  [7, 12, 17, 22, 7, 12, 17, 22, 7, 12, 17, 22, 7, 12, 17, 22,
   5, 9, 14, 20, 5, 9, 14, 20, 5, 9, 14, 20, 5, 9, 14, 20,
   4, 11, 16, 23, 4, 11, 16, 23, 4, 11, 16, 23, 4, 11, 16, 23,
   6, 10, 15, 21, 6, 10, 15, 21, 6, 10, 15, 21, 6, 10, 15, 21]

structure Md5State where
  a : Nat
  b : Nat
  c : Nat
  d : Nat
deriving DecidableEq

def md5H0 : Md5State := ⟨1732584193, 4023233417, 2562383102, 271733878⟩

/-- One MD5 round `i` (0-based) on state with the 16 message words `m`. -/
def md5Round (m : List Nat) (st : Md5State) (i : Nat) : Md5State :=
  let f :=
    if i < 16 then or32 (and32 st.b st.c) (and32 (not32 st.b) st.d)
    else if i < 32 then or32 (and32 st.d st.b) (and32 (not32 st.d) st.c)
    else if i < 48 then xor32 (xor32 st.b st.c) st.d
    else xor32 st.c (or32 st.b (not32 st.d))
  let g :=
    if i < 16 then i
    else if i < 32 then (5 * i + 1) % 16
    else if i < 48 then (3 * i + 5) % 16
    else (7 * i) % 16
  let t := add32 (add32 f st.a) (add32 (md5K.getD i 0) (m.getD g 0))
  ⟨st.d, add32 st.b (rotl32 t (md5S.getD i 0)), st.b, st.c⟩

/-- Little-endian 4-byte group to 32-bit word. -/
def word32OfBytesLE : List Nat → Nat
  | [b0, b1, b2, b3] => ((b3 * 256 + b2) * 256 + b1) * 256 + b0
  | _ => 0

def md5Compress (st : Md5State) (block : List Nat) : Md5State :=
  let m := (chunk4 block).map word32OfBytesLE
  let fin := (List.range 64).foldl (md5Round m) st
  ⟨add32 st.a fin.a, add32 st.b fin.b, add32 st.c fin.c, add32 st.d fin.d⟩

/-- MD5 padding: 0x80, zeros, 64-bit little-endian bit length. -/
def md5Pad (msg : List Nat) : List Nat :=
  let len := msg.length
  let bitLen := len * 8
  let padZeros := (64 - ((len + 9) % 64)) % 64
  let lenBytes := (List.range 8).map (fun i => bitLen / 2 ^ (8 * i) % 256)
  msg ++ [128] ++ List.replicate padZeros 0 ++ lenBytes

def bytesOfWord32LE (w : Nat) : List Nat :=
  [w % 256, w / 256 % 256, w / 65536 % 256, w / 16777216 % 256]

def md5Bytes (msg : List Nat) : List Nat :=
  let blocks := chunk64 (md5Pad msg)
  let st := blocks.foldl md5Compress md5H0
  bytesOfWord32LE st.a ++ bytesOfWord32LE st.b ++ bytesOfWord32LE st.c ++ bytesOfWord32LE st.d

/-- `hashlib.md5(s.encode()).hexdigest()`. -/
def md5Hex (s : String) : String :=
  String.mk ((md5Bytes (utf8Encode s)).flatMap byteToHex)

end IW

namespace IW

/-! ## urllib.parse (CPython 3.11) — the parts used by `tasks.hash_url`

Modelled from CPython 3.11 `urllib/parse.py`: `urlsplit`, `_splitnetloc`,
`_splitparams`, `urlparse`, `urlunsplit`, `urlunparse`. Raising paths
(mismatched IPv6 brackets) are modelled with `Except`. Out of modelled scope
(documented infidelities, none reachable from the claims): the IPv6
`_check_bracketed_host` validation of a well-bracketed host, and the
`_checknetloc` NFKC check, which can only fire on non-ASCII netlocs. -/

structure SplitResult where
  scheme : String
  netloc : String
  path : String
  query : String
  fragment : String
deriving DecidableEq

structure ParseResult where
  scheme : String
  netloc : String
  path : String
  params : String
  query : String
  fragment : String
deriving DecidableEq

/-- `_WHATWG_C0_CONTROL_OR_SPACE`: code points 0x00..0x20. -/
def isC0ControlOrSpace (c : Char) : Bool := c.toNat ≤ 32

/-- `scheme_chars = ascii letters + digits + '+-.'`. -/
def isSchemeChar (c : Char) : Bool :=
  (65 ≤ c.toNat ∧ c.toNat ≤ 90) ∨ (97 ≤ c.toNat ∧ c.toNat ≤ 122) ∨
  (48 ≤ c.toNat ∧ c.toNat ≤ 57) ∨ c = '+' ∨ c = '-' ∨ c = '.'

/-- `url[0].isascii() and url[0].isalpha()`. -/
def isAsciiAlpha (c : Char) : Bool :=
  (65 ≤ c.toNat ∧ c.toNat ≤ 90) ∨ (97 ≤ c.toNat ∧ c.toNat ≤ 122)

/-- `_splitnetloc(url, 2)`: netloc runs to the first of `/?#` at or after
index 2; returns (netloc, rest), rest keeping the delimiter. -/
def splitNetloc (url : String) : String × String :=
  let l := url.data
  let cand := [pyFindCharFrom '/' 2 l, pyFindCharFrom '?' 2 l, pyFindCharFrom '#' 2 l]
  let delim := cand.foldl (fun d o => match o with
    | Option.none => d
    | some i => min d i) l.length
  (String.mk ((l.drop 2).take (delim - 2)), String.mk (l.drop delim))

/-- Step 3 of `urlsplit`: detect and split off the scheme. -/
def splitScheme (url : String) : String × String :=
  match pyFindChar ':' url.data with
  | Option.none => ("", url)
  | some i =>
    let headAlpha : Bool :=
      match url.data.head? with
      | some c => isAsciiAlpha c
      | Option.none => false
    if 0 < i ∧ headAlpha ∧ (url.data.take i).all isSchemeChar then
      (pyLower (pyTake url i), pyDrop url (i + 1))
    else ("", url)

/-- `urllib.parse.urlsplit(url)` (default `scheme=''`, `allow_fragments=True`). -/
def urlsplit (url0 : String) : Except String SplitResult := do
  -- only lstrip, per the CPython comment about preserving trailing space
  let url1 := pyLstrip isC0ControlOrSpace url0
  -- _UNSAFE_URL_BYTES_TO_REMOVE = ['\t', '\r', '\n']
  let url2 := pyRemoveChar '\n' (pyRemoveChar (Char.ofNat 13) (pyRemoveChar '\t' url1))
  let (scheme, url3) := splitScheme url2
  let (netloc, url4) ←
    if pyStartswith url3 "//" then do
      let (n, rest) := splitNetloc url3
      if (pyContainsChar '[' n ∧ ¬ pyContainsChar ']' n) ∨
         (pyContainsChar ']' n ∧ ¬ pyContainsChar '[' n) then
        Except.error "Invalid IPv6 URL"
      else
        pure (n, rest)
    else
      pure ("", url3)
  let (url5, fragment) :=
    match pySplitOnce '#' url4 with
    | some (a, b) => (a, b)
    | Option.none => (url4, "")
  let (url6, query) :=
    match pySplitOnce '?' url5 with
    | some (a, b) => (a, b)
    | Option.none => (url5, "")
  return ⟨scheme, netloc, url6, query, fragment⟩

/-- `uses_params` (CPython 3.11). -/
def usesParams : List String :=
  ["", "ftp", "hdl", "prospero", "http", "imap", "https", "shttp", "rtsp",
   "rtsps", "rtspu", "sip", "sips", "mms", "sftp", "tel"]

/-- `uses_netloc` (CPython 3.11). -/
def usesNetloc : List String :=
  ["", "ftp", "http", "gopher", "nntp", "telnet", "imap", "wais", "file", "mms",
   "https", "shttp", "snews", "prospero", "rtsp", "rtsps", "rtspu", "rsync",
   "svn", "svn+ssh", "sftp", "nfs", "git", "git+ssh", "ws", "wss"]

/-- `_splitparams(url)`. -/
def splitParams (url : String) : String × String :=
  let l := url.data
  if pyContainsChar '/' url then
    let start := match pyRfindChar '/' l with
      | some i => i
      | Option.none => 0
    match pyFindCharFrom ';' start l with
    | Option.none => (url, "")
    | some i => (String.mk (l.take i), String.mk (l.drop (i + 1)))
  else
    match pyFindChar ';' l with
    | Option.none => (url, "")
    | some i => (String.mk (l.take i), String.mk (l.drop (i + 1)))

/-- `urllib.parse.urlparse(url)`. -/
def urlparse (url : String) : Except String ParseResult := do
  let s ← urlsplit url
  if usesParams.contains s.scheme ∧ pyContainsChar ';' s.path then
    let (p, params) := splitParams s.path
    return ⟨s.scheme, s.netloc, p, params, s.query, s.fragment⟩
  else
    return ⟨s.scheme, s.netloc, s.path, "", s.query, s.fragment⟩

/-- `urllib.parse.urlunsplit`. -/
def urlunsplit (scheme netloc url query fragment : String) : String :=
  let url :=
    if netloc ≠ "" ∨ (scheme ≠ "" ∧ usesNetloc.contains scheme ∧ ¬ pyStartswith url "//") then
      let url := if url ≠ "" ∧ ¬ pyStartswith url "/" then "/" ++ url else url
      "//" ++ netloc ++ url
    else url
  let url := if scheme ≠ "" then scheme ++ ":" ++ url else url
  let url := if query ≠ "" then url ++ "?" ++ query else url
  if fragment ≠ "" then url ++ "#" ++ fragment else url

/-- `urllib.parse.urlunparse`. -/
def urlunparse (scheme netloc url params query fragment : String) : String :=
  let url := if params ≠ "" then url ++ ";" ++ params else url
  urlunsplit scheme netloc url query fragment

/-! ## `tasks.hash_url` (src/src/tasks.py lines 14-30) -/

/-- The normalized URL built inside `hash_url`: lower-cased scheme and netloc,
`path.rstrip('/') or '/'` (Python `rstrip` removes ALL trailing slashes),
params/query/fragment verbatim, reassembled with `urlunparse`. -/
def normalizeUrl (url : String) : Except String String := do
  let p ← urlparse url
  let path := pyRstrip (fun c => c = '/') p.path
  let path := if path = "" then "/" else path
  return urlunparse (pyLower p.scheme) (pyLower p.netloc) path p.params p.query p.fragment

/-- `tasks.hash_url`: SHA-256 hex digest of the normalized URL. -/
def hash_url (url : String) : Except String String := do
  let n ← normalizeUrl url
  return sha256Hex n

/-- Modelled from the spec (section 4.1 / claim C1 wording): normalize by
lower-casing scheme and host, stripping a SINGLE trailing slash from the path
(an empty path becoming "/"), keeping params, query and fragment verbatim.
This is the comparator for the refinement claim C1; the code version above
strips ALL trailing slashes instead. -/
def specNormalizeSingleSlash (url : String) : Except String String := do
  let p ← urlparse url
  let path := if pyEndswithChar p.path '/' then pyTake p.path (p.path.data.length - 1) else p.path
  let path := if path = "" then "/" else path
  return urlunparse (pyLower p.scheme) (pyLower p.netloc) path p.params p.query p.fragment

/-- The claim C1 statement as written: the digest is taken of the
single-slash-stripped normalized URL. -/
def specHashSingleSlash (url : String) : Except String String :=
  (specNormalizeSingleSlash url).map sha256Hex

end IW

namespace IW

/-! ## Python dynamic values and `json.loads`

`LLMService._parse_investment_suggestion` feeds the provider response through
`json.loads` and then manipulates the resulting Python object dynamically, so
the model needs a type of Python values and a faithful JSON decoder.

Python exceptions relevant to the parsing code. `json.JSONDecodeError` is a
subclass of `ValueError`, but the code catches it by its own name, so it is kept
separate here. -/

inductive PyErr where
  | decodeError
  | typeError
  | valueError
  | indexError
deriving DecidableEq

/-- Python floats, modelled exactly as scaled decimals `num / 10^exp`.
Every float the pipeline produces comes from a decimal literal in a JSON
document, a prompt, or a configuration default, so this representation is
exact (documented scope: `float` rounding never matters for any claim, and
inf/nan are outside the model). The representation is kept unnormalized so
that all arithmetic is plain `Int`/`Nat` computation, which the kernel can
evaluate. -/
structure PyFloatVal where
  num : Int
  exp : Nat
deriving DecidableEq

def pow10 (k : Nat) : Int := ((10 ^ k : Nat) : Int)

/-- Numeric `a <= b` on scaled decimals (cross-multiplication; denominators
are the positive numbers `10^exp`). -/
def pfLe (a b : PyFloatVal) : Bool := a.num * pow10 b.exp ≤ b.num * pow10 a.exp

/-- Numeric `a < b`. -/
def pfLt (a b : PyFloatVal) : Bool := a.num * pow10 b.exp < b.num * pow10 a.exp

/-- Numeric `a >= b`. -/
def pfGe (a b : PyFloatVal) : Bool := pfLe b a

/-- The rational number a `PyFloatVal` denotes (used only in statements). -/
def pfToRat (f : PyFloatVal) : Rat := (f.num : Rat) / ((10 : Rat) ^ f.exp)

/-- Python values as produced by `json.loads` plus `None`. Numbers keep the
int/float distinction. -/
inductive PyVal where
  | pnone : PyVal
  | pbool : Bool → PyVal
  | pint : Int → PyVal
  | pfloat : PyFloatVal → PyVal
  | pstr : String → PyVal
  | plist : List PyVal → PyVal
  | pdict : List (String × PyVal) → PyVal

def quoteChar : Char := Char.ofNat 34

def backslashChar : Char := Char.ofNat 92

def openBrace : Char := Char.ofNat 123

def closeBrace : Char := Char.ofNat 125

/-- Python `bool(v)` truthiness for the values above. -/
def pyTruthyVal : PyVal → Bool
  | .pnone => false
  | .pbool b => b
  | .pint n => n ≠ 0
  | .pfloat q => q.num ≠ 0
  | .pstr s => s ≠ ""
  | .plist xs => ¬ xs.isEmpty
  | .pdict kvs => ¬ kvs.isEmpty

/-- Python dict lookup (dicts built by the decoder have unique keys). -/
def pyDictLookup (kvs : List (String × PyVal)) (k : String) : Option PyVal :=
  (kvs.find? (fun p => p.1 = k)).map (fun p => p.2)

/-- Python dict assignment `d[k] = v`: replace in place, or append. -/
def pyDictSet (kvs : List (String × PyVal)) (k : String) (v : PyVal) : List (String × PyVal) :=
  if kvs.any (fun p => p.1 = k) then kvs.map (fun p => if p.1 = k then (k, v) else p)
  else kvs ++ [(k, v)]

def isDigitChar (c : Char) : Bool := 48 ≤ c.toNat ∧ c.toNat ≤ 57

def takeDigits (l : List Char) : List Char × List Char :=
  (l.takeWhile isDigitChar, l.dropWhile isDigitChar)

def digitsToNat (l : List Char) : Nat := l.foldl (fun a c => a * 10 + (c.toNat - 48)) 0

/-- Build the scaled decimal `sign * (ip.fp) * 10^(esign*ed)` from digit runs. -/
def mkScaled (neg : Bool) (ip fp : List Char) (esign : Int) (ed : Nat) : PyFloatVal :=
  let mantNum : Int := (digitsToNat ip * 10 ^ fp.length + digitsToNat fp : Nat)
  let v : PyFloatVal :=
    if 0 ≤ esign then ⟨mantNum * pow10 ed, fp.length⟩
    else ⟨mantNum, fp.length + ed⟩
  if neg then ⟨-v.num, v.exp⟩ else v

/-- Python `float(s)` on a string: strip whitespace, optional sign, decimal
digits with optional fraction and exponent. Returns none where Python raises
ValueError. (Documented scope: inf/nan spellings and digit underscores are
outside the model; no claim touches them.) -/
def pyFloatOfString (s : String) : Option PyFloatVal :=
  let l := pyStripList pyIsSpace s.data
  let (neg, l1) : Bool × List Char :=
    match l with
    | '+' :: r => (false, r)
    | '-' :: r => (true, r)
    | _ => (false, l)
  let (ip, l2) := takeDigits l1
  let (fp, l3) : List Char × List Char :=
    match l2 with
    | '.' :: r => takeDigits r
    | _ => ([], l2)
  if ip.isEmpty ∧ fp.isEmpty then Option.none
  else
    match l3 with
    | [] => some (mkScaled neg ip fp 1 0)
    | c :: r =>
      if c = 'e' ∨ c = 'E' then
        let (esign, r2) : Int × List Char :=
          match r with
          | '+' :: r3 => (1, r3)
          | '-' :: r3 => (-1, r3)
          | _ => (1, r)
        let (ed, r4) := takeDigits r2
        if ed.isEmpty ∨ ¬ r4.isEmpty then Option.none
        else some (mkScaled neg ip fp esign (digitsToNat ed))
      else Option.none

/-- Python `float(v)` on an arbitrary value; errors are exactly the
ValueError/TypeError cases of CPython. -/
def pyFloat : PyVal → Except PyErr PyFloatVal
  | .pbool b => .ok (if b then ⟨1, 0⟩ else ⟨0, 0⟩)
  | .pint n => .ok ⟨n, 0⟩
  | .pfloat q => .ok q
  | .pstr s =>
    match pyFloatOfString s with
    | some q => .ok q
    | Option.none => .error .valueError
  | .pnone => .error .typeError
  | .plist _ => .error .typeError
  | .pdict _ => .error .typeError

/-! ### Strict JSON decoding (`json.loads`) -/

def isJsonWs (c : Char) : Bool := c = ' ' ∨ c = '\t' ∨ c = '\n' ∨ c.toNat = 13

def skipWs (l : List Char) : List Char := l.dropWhile isJsonWs

def hexVal (c : Char) : Option Nat :=
  if 48 ≤ c.toNat ∧ c.toNat ≤ 57 then some (c.toNat - 48)
  else if 97 ≤ c.toNat ∧ c.toNat ≤ 102 then some (c.toNat - 87)
  else if 65 ≤ c.toNat ∧ c.toNat ≤ 70 then some (c.toNat - 55)
  else Option.none

/-- JSON string body after the opening quote; strict mode rejects raw control
characters. (Documented scope: surrogate-pair `\uXXXX` recombination is outside
the model.) -/
def jsonStringGo : List Char → Except PyErr (List Char × List Char)
  | [] => .error .decodeError
  | c :: rest =>
    if c = quoteChar then .ok ([], rest)
    else if c = backslashChar then
      match rest with
      | [] => .error .decodeError
      | e :: r2 =>
        let esc : Option Char :=
          if e = quoteChar then some quoteChar
          else if e = backslashChar then some backslashChar
          else if e = '/' then some '/'
          else if e = 'b' then some (Char.ofNat 8)
          else if e = 'f' then some (Char.ofNat 12)
          else if e = 'n' then some '\n'
          else if e = 'r' then some (Char.ofNat 13)
          else if e = 't' then some '\t'
          else Option.none
        match esc with
        | some ch =>
          match jsonStringGo r2 with
          | .ok (content, r3) => .ok (ch :: content, r3)
          | .error err => .error err
        | Option.none =>
          if e = 'u' then
            match r2 with
            | h1 :: h2 :: h3 :: h4 :: r3 =>
              match hexVal h1, hexVal h2, hexVal h3, hexVal h4 with
              | some v1, some v2, some v3, some v4 =>
                match jsonStringGo r3 with
                | .ok (content, r4) =>
                  .ok (Char.ofNat (((v1 * 16 + v2) * 16 + v3) * 16 + v4) :: content, r4)
                | .error err => .error err
              | _, _, _, _ => .error .decodeError
            | _ => .error .decodeError
          else .error .decodeError
    else if c.toNat < 32 then .error .decodeError
    else
      match jsonStringGo rest with
      | .ok (content, r2) => .ok (c :: content, r2)
      | .error err => .error err

/-- JSON number at the head of the input (grammar of RFC 8259; ints without
fraction/exponent decode to Python int, others to float). -/
def jsonNumber (l : List Char) : Except PyErr (PyVal × List Char) :=
  let (neg, l1) : Bool × List Char :=
    match l with
    | '-' :: r => (true, r)
    | _ => (false, l)
  let (ip, l2) := takeDigits l1
  if ip.isEmpty then .error .decodeError
  else if 1 < ip.length ∧ ip.headD '0' = '0' then .error .decodeError
  else
    let (fp, l3, hasFrac) : List Char × List Char × Bool :=
      match l2 with
      | '.' :: r => let (d, r2) := takeDigits r; (d, r2, true)
      | _ => ([], l2, false)
    if hasFrac ∧ fp.isEmpty then .error .decodeError
    else
      let (ed, esign, l4, hasExp) : List Char × Int × List Char × Bool :=
        match l3 with
        | 'e' :: '+' :: r => let (d, r2) := takeDigits r; (d, 1, r2, true)
        | 'e' :: '-' :: r => let (d, r2) := takeDigits r; (d, -1, r2, true)
        | 'e' :: r => let (d, r2) := takeDigits r; (d, 1, r2, true)
        | 'E' :: '+' :: r => let (d, r2) := takeDigits r; (d, 1, r2, true)
        | 'E' :: '-' :: r => let (d, r2) := takeDigits r; (d, -1, r2, true)
        | 'E' :: r => let (d, r2) := takeDigits r; (d, 1, r2, true)
        | _ => ([], 1, l3, false)
      if hasExp ∧ ed.isEmpty then .error .decodeError
      else if hasFrac ∨ hasExp then
        .ok (.pfloat (mkScaled neg ip fp esign (digitsToNat ed)), l4)
      else
        let n : Int := digitsToNat ip
        .ok (.pint (if neg then -n else n), l4)

/-- Decoder modes: a value, the elements of an array after `[`, or the members
of an object after the opening brace (with the accumulator so far). -/
inductive JMode where
  | value : JMode
  | elements : List PyVal → JMode
  | members : List (String × PyVal) → JMode

/-- Fuel-based strict JSON decoder (fuel keeps the recursion structural so that
concrete inputs reduce in the kernel; the fuel passed by `json_loads` is always
sufficient). -/
def jsonP : Nat → JMode → List Char → Except PyErr (PyVal × List Char)
  | 0, _, _ => .error .decodeError
  | Nat.succ f, JMode.value, cs =>
    match skipWs cs with
    | [] => .error .decodeError
    | c :: rest =>
      if c = openBrace then
        match skipWs rest with
        | [] => .error .decodeError
        | d :: r2 =>
          if d = closeBrace then .ok (.pdict [], r2)
          else jsonP f (JMode.members []) (d :: r2)
      else if c = '[' then
        match skipWs rest with
        | [] => .error .decodeError
        | d :: r2 =>
          if d = ']' then .ok (.plist [], r2)
          else jsonP f (JMode.elements []) (d :: r2)
      else if c = quoteChar then
        match jsonStringGo rest with
        | .ok (content, r2) => .ok (.pstr (String.mk content), r2)
        | .error e => .error e
      else if c = 't' then
        if ['r', 'u', 'e'].isPrefixOf rest then .ok (.pbool true, rest.drop 3)
        else .error .decodeError
      else if c = 'f' then
        if ['a', 'l', 's', 'e'].isPrefixOf rest then .ok (.pbool false, rest.drop 4)
        else .error .decodeError
      else if c = 'n' then
        if ['u', 'l', 'l'].isPrefixOf rest then .ok (.pnone, rest.drop 3)
        else .error .decodeError
      else if c = '-' ∨ isDigitChar c then jsonNumber (c :: rest)
      else .error .decodeError
  | Nat.succ f, JMode.elements acc, cs =>
    match jsonP f JMode.value cs with
    | .error e => .error e
    | .ok (v, rest) =>
      match skipWs rest with
      | [] => .error .decodeError
      | x :: r2 =>
        if x = ',' then jsonP f (JMode.elements (acc ++ [v])) r2
        else if x = ']' then .ok (.plist (acc ++ [v]), r2)
        else .error .decodeError
  | Nat.succ f, JMode.members acc, cs =>
    match skipWs cs with
    | [] => .error .decodeError
    | c :: rest =>
      if c = quoteChar then
        match jsonStringGo rest with
        | .error e => .error e
        | .ok (key, r2) =>
          match skipWs r2 with
          | ':' :: r3 =>
            match jsonP f JMode.value r3 with
            | .error e => .error e
            | .ok (v, r4) =>
              let acc2 := pyDictSet acc (String.mk key) v
              match skipWs r4 with
              | [] => .error .decodeError
              | x :: r5 =>
                if x = ',' then jsonP f (JMode.members acc2) r5
                else if x = closeBrace then .ok (.pdict acc2, r5)
                else .error .decodeError
          | _ => .error .decodeError
      else .error .decodeError

/-- `json.loads`: decode one JSON document, allowing surrounding whitespace and
rejecting trailing data. -/
def json_loads (s : String) : Except PyErr PyVal :=
  match jsonP (2 * s.data.length + 4) JMode.value s.data with
  | .error e => .error e
  | .ok (v, rest) => if (skipWs rest).isEmpty then .ok v else .error .decodeError

end IW

namespace IW

/-! ## `LLMService._parse_investment_suggestion` (src/src/llm_service.py 247-283) -/

def confidenceKey : String := "confidence_score"

/-- Python `needle in parsed` for the values `json.loads` can produce:
key test on dicts, membership on lists, substring on strings, TypeError
otherwise. -/
def pyContainsVal (needle : String) : PyVal → Except PyErr Bool
  | .pdict kvs => .ok (kvs.any (fun p => p.1 = needle))
  | .plist xs => .ok (xs.any (fun v => match v with
      | .pstr s => s = needle
      | _ => false))
  | .pstr s => .ok (pyContainsSub needle s)
  | _ => .error .typeError

/-- The JSON branch of `_parse_investment_suggestion`: on a successful
`json.loads`, coerce the confidence entry.

The code reads `parsed['confidence_score']` and writes back inside a
`try/except (ValueError, TypeError)`. When `parsed` is a list or a string that
contains the key, the subscript read raises TypeError and the handler's own
subscript assignment re-raises TypeError uncaught, so the branch propagates
the error. -/
def jsonBranch (parsed : PyVal) : Except PyErr PyVal :=
  match pyContainsVal confidenceKey parsed with
  | .error e => .error e
  | .ok false => .ok parsed
  | .ok true =>
    match parsed with
    | .pdict kvs =>
      let v := (pyDictLookup kvs confidenceKey).getD .pnone
      match pyFloat v with
      | .ok q => .ok (.pdict (pyDictSet kvs confidenceKey (.pfloat q)))
      | .error _ => .ok (.pdict (pyDictSet kvs confidenceKey .pnone))
    | _ => .error .typeError

/-- Mutable state of the line-oriented fallback loop: the three entries of the
`result` dict. -/
structure LineState where
  key_impact : String
  suggestion : String
  confidence_score : PyVal

/-- Python `.strip('"')`: drop all leading and trailing double quotes. -/
def stripQuotes (s : String) : String :=
  String.mk (pyStripList (fun c => c = quoteChar) s.data)

/-- One iteration of the fallback loop. `line.split(':', 1)[1]` raises
IndexError (uncaught) when the line has no colon. -/
def processLine (st : LineState) (line0 : String) : Except PyErr LineState :=
  let line := pyStrip line0
  if pyStartswith line "\x22key_impact\x22" ∨ pyStartswith line "Key Impact" then
    match pySplitOnce ':' line with
    | Option.none => .error .indexError
    | some (_, after) => .ok { st with key_impact := stripQuotes (pyStrip after) }
  else if pyStartswith line "\x22suggestion\x22" ∨ pyStartswith line "Investment Suggestion" then
    match pySplitOnce ':' line with
    | Option.none => .error .indexError
    | some (_, after) => .ok { st with suggestion := stripQuotes (pyStrip after) }
  else if pyStartswith line "\x22confidence_score\x22" ∨ pyStartswith line "Confidence Score" then
    match pySplitOnce ':' line with
    | Option.none => .error .indexError
    | some (_, after) =>
      let cstr := stripQuotes (pyStrip after)
      match pyFloatOfString cstr with
      | some q => .ok { st with confidence_score := .pfloat q }
      | Option.none => .ok { st with confidence_score := .pnone }
  else .ok st

def lineFold (st : LineState) : List String → Except PyErr LineState
  | [] => .ok st
  | l :: rest =>
    match processLine st l with
    | .error e => .error e
    | .ok st2 => lineFold st2 rest

/-- The text-parsing fallback branch: split the stripped response on newlines,
fold the line loop over `result = {"key_impact": "", "suggestion": "",
"confidence_score": None}`, and if both text fields stayed empty fall back to
the raw response as the suggestion with no confidence. -/
def textBranch (response : String) : Except PyErr PyVal :=
  match lineFold ⟨"", "", .pnone⟩ (pySplitLines (pyStrip response)) with
  | .error e => .error e
  | .ok st =>
    let fin : LineState :=
      if st.key_impact = "" ∧ st.suggestion = "" then
        ⟨"Analysis completed", response, .pnone⟩
      else st
    .ok (.pdict [("key_impact", .pstr fin.key_impact),
                 ("suggestion", .pstr fin.suggestion),
                 ("confidence_score", fin.confidence_score)])

/-- `_parse_investment_suggestion(response)`: try JSON first, fall back to the
line-oriented text parse on `json.JSONDecodeError`. -/
def parse_investment_suggestion (response : String) : Except PyErr PyVal :=
  match json_loads response with
  | .ok parsed => jsonBranch parsed
  | .error _ => textBranch response

/-! ## `LLMService._call_llm_api` and `_get_placeholder_response`
(src/src/llm_service.py 285-338) -/

/-- `_get_placeholder_response("investment_suggestion")` is
`json.dumps({...})`; this literal is exactly the string json.dumps produces
for that dict (insertion order, default separators). -/
def placeholder_suggestion_text : String :=
  "\x7b\x22key_impact\x22: \x22Technology sector developments may influence market sentiment\x22, \x22suggestion\x22: \x22Monitor related stocks and consider sector-specific ETFs for potential opportunities\x22, \x22confidence_score\x22: 0.5\x7d"

def placeholder_summary_text : String :=
  "This article discusses recent developments in the technology sector that may have implications for investors and market participants."

def get_placeholder_response (task_type : String) : String :=
  if task_type = "summary" then placeholder_summary_text
  else if task_type = "investment_suggestion" then placeholder_suggestion_text
  else "Analysis pending - please check back later for updated insights."

/-- `_call_llm_api(prompt, task_type, model)`. The OpenAI client handle and the
outcome of the network call are oracles: `client = None` models a missing
OPENAI_API_KEY; a `.error` outcome models any exception from the provider call.
On success the code returns `response.output_text.strip()`. The `prompt` and
`model` arguments do not influence the modelled control flow. -/
def call_llm_api (client : Option Unit) (providerResult : Except Unit String)
    (_prompt task_type : String) : String :=
  match client with
  | Option.none => get_placeholder_response task_type
  | some _ =>
    match providerResult with
    | .ok text => pyStrip text
    | .error _ => get_placeholder_response task_type

/-! ## The response cache and `generate_summary`
(src/src/llm_service.py 105-127 and 167-193) -/

/-- `self.cache_timeout = 86400` (seconds). The cache model below contains
exactly the unexpired entries, so "within the TTL" is the scope of the model:
expiry between two calls would remove entries, which is outside the claims. -/
def cache_timeout : Nat := 86400

/-- `_get_cache_key(content, task_type)`: the literal llm_ prefix text, the
task type, an underscore, and the md5 hex digest of the content. -/
def get_cache_key (content task_type : String) : String :=
  "llm_" ++ task_type ++ "_" ++ md5Hex content

/-- `django.core.cache.cache.get` over the unexpired entries. -/
def cacheGet (cache : List (String × String)) (k : String) : Option String :=
  (cache.find? (fun p => p.1 = k)).map (fun p => p.2)

/-- `django.core.cache.cache.set`. -/
def cacheSet (cache : List (String × String)) (k v : String) : List (String × String) :=
  if cache.any (fun p => p.1 = k) then cache.map (fun p => if p.1 = k then (k, v) else p)
  else cache ++ [(k, v)]

/-- `_truncate_content(content, max_length)`. The Python comparison
`last_space > max_length * 0.8` is modelled as the exact rational comparison
`5 * last_space > 4 * max_length`; for the call sites (2000, 1500) the float
product is not at an integer boundary, so this is the same predicate. -/
def truncate_content (content : String) (max_length : Nat) : String :=
  if content.data.length ≤ max_length then content
  else
    let truncated := pyTake content max_length
    match pyRfindChar ' ' truncated.data with
    | some last_space =>
      if 5 * last_space > 4 * max_length then
        pyTake truncated last_space ++ "..."
      else truncated ++ "..."
    | Option.none => truncated ++ "..."

/-- The summary prompt f-string of `generate_summary`. -/
def summary_prompt (truncated_content : String) : String :=
  "\n            Please provide a concise summary (2-3 sentences) of the following news article content. \n            Focus on the key facts and main points that would be relevant for investment decisions.\n            \n            Content: " ++ truncated_content ++ "\n            "

/-- Result of one `generate_summary` run: the returned string, the cache
afterwards, and whether a real provider request was attempted (true exactly
when the cache missed and a client handle exists). -/
structure SummaryRun where
  result : String
  cache : List (String × String)
  api_called : Bool
deriving DecidableEq

/-- `generate_summary(content, model)`: check the cache (a cached empty string
is falsy and treated as a miss, as in the code), otherwise truncate, prompt,
call the provider, and cache a truthy result. -/
def generate_summary (cache : List (String × String)) (client : Option Unit)
    (providerResult : Except Unit String) (content : String) : SummaryRun :=
  let cache_key := get_cache_key content "summary"
  let hit : Option String :=
    match cacheGet cache cache_key with
    | some v => if v ≠ "" then some v else Option.none
    | Option.none => Option.none
  match hit with
  | some v => ⟨v, cache, false⟩
  | Option.none =>
    let truncated := truncate_content content 2000
    let result := call_llm_api client providerResult (summary_prompt truncated) "summary"
    if result ≠ "" then ⟨result, cacheSet cache cache_key result, client.isSome⟩
    else ⟨result, cache, client.isSome⟩

end IW

namespace IW

/-! ## `EmailNotificationService` (src/src/email_service.py 15-44) -/

/-- The configuration the service reads from Django settings in `__init__`. -/
structure EmailConfig where
  enabled : Bool
  recipients : List String
  confidence_threshold : PyFloatVal
  from_email : String

/-- `should_send_notification(confidence_score)`: the guard sequence of the
code — disabled, missing recipients or sender (Python truthiness: empty list /
empty string are falsy), absent score, then `confidence_score >=
self.confidence_threshold`. -/
def should_send_notification (cfg : EmailConfig) (confidence_score : Option PyFloatVal) : Bool :=
  if ¬ cfg.enabled then false
  else if cfg.recipients.isEmpty ∨ cfg.from_email = "" then false
  else
    match confidence_score with
    | Option.none => false
    | some c => if pfGe c cfg.confidence_threshold then true else false

/-- Modelled from the spec (section 4.6): "false if notifications are
disabled, if no recipients/sender configured, if confidenceScore is absent, or
if confidenceScore < threshold; true otherwise." Comparator for the
refinement claim C3. -/
def shouldNotifySpec (cfg : EmailConfig) (confidence_score : Option PyFloatVal) : Bool :=
  match confidence_score with
  | Option.none => false
  | some c =>
    cfg.enabled && !cfg.recipients.isEmpty && !(cfg.from_email == "") &&
      !pfLt c cfg.confidence_threshold

/-! ## Scrapers (src/src/scrapers.py) -/

/-- A scraped article dict (`BaseScraper.scrape_article` result).
Timestamps are seconds as integers. -/
structure ScrapeResult where
  title : String
  url : String
  content : String
  published_at : Int
  source : String
deriving DecidableEq

/-- What `newspaper3k` extraction yields for one URL before the checks:
title, body text, and an optional publish date. -/
structure Extraction where
  title : String
  text : String
  publish_date : Option Int
deriving DecidableEq

/-- `BaseScraper.scrape_article(url)`: the download/extraction step is an
oracle (`.error` = any network/parse exception, caught by the function's own
try/except); incomplete extraction (missing title or body) and articles older
than the 24-hour window (`86400` seconds; a missing publish date defaults to
`datetime.now()`) yield `None`. -/
def scrape_article (source : String) (now : Int)
    (download : String → Except Unit Extraction) (url : String) : Option ScrapeResult :=
  match download url with
  | .error _ => Option.none
  | .ok a =>
    if a.title = "" ∨ a.text = "" then Option.none
    else
      let publish_date := a.publish_date.getD now
      if publish_date < now - 86400 then Option.none
      else some ⟨pyStrip a.title, url, pyStrip a.text, publish_date, source⟩

/-- The loop of `BaseScraper.scrape_all` over the discovered links, also
recording the links on which `scrape_article` was invoked: a `Some` result is
appended and the loop continues; the first `None` result breaks out of the
loop (the chronological early exit). -/
def scrape_all_go (fetch : String → Option ScrapeResult) :
    List String → List ScrapeResult × List String
  | [] => ([], [])
  | l :: ls =>
    match fetch l with
    | some a =>
      let (rs, ts) := scrape_all_go fetch ls
      (a :: rs, l :: ts)
    | Option.none => ([], [l])

/-- `BaseScraper.scrape_all()` -- first component of the traced loop. -/
def scrape_all (fetch : String → Option ScrapeResult) (links : List String) :
    List ScrapeResult :=
  (scrape_all_go fetch links).1

/-- The links `scrape_all` fetches (the trace of `scrape_article` calls). -/
def scrape_all_fetched (fetch : String → Option ScrapeResult) (links : List String) :
    List String :=
  (scrape_all_go fetch links).2

/-- The anchor-filter loop of `TechCrunchScraper.get_article_links`: keep
hrefs that exist, start with the site prefix, match none of the excluded URL
patterns, and are not already collected (in-result dedup). -/
def techcrunch_link_filter (anchors : List (Option String)) : List String :=
  anchors.foldl (fun links href? =>
    match href? with
    | Option.none => links
    | some href =>
      if pyStartswith href "https://techcrunch.com/" then
        if pyContainsSub "/video/" href ∨ pyContainsSub "/events/" href ∨
           pyContainsSub "/podcast/" href ∨ pyContainsSub "/newsletters/" href ∨
           pyContainsSub "/author/" href then links
        else if links.contains href then links
        else links ++ [href]
      else links) []

/-- `TechCrunchScraper.get_article_links()`: the page download and soup query
are an oracle producing the candidate anchors; any raised exception
(`.error`) is caught and becomes an empty list. -/
def get_article_links (page : Except Unit (List (Option String))) : List String :=
  match page with
  | .ok anchors => techcrunch_link_filter anchors
  | .error _ => []

/-- `ScrapingService.scrape_all_sources()`: each configured scraper run is an
oracle outcome; a raising scraper (`.error`) is caught, logged and skipped,
the others' articles are concatenated in order. -/
def scrape_all_sources (runs : List (Except Unit (List ScrapeResult))) : List ScrapeResult :=
  runs.foldl (fun acc r =>
    match r with
    | .ok articles => acc ++ articles
    | .error _ => acc) []

/-! ## Task orchestration (src/src/tasks.py) -/

/-- Persisted article row: the fields touched by the tasks. `suggestion` and
`confidence_score` hold Python values to mirror the dynamically-typed
assignments in `process_article_task`. -/
structure Article where
  title : String
  url : String
  hashed_url : String
  content : String
  summary : Option String
  suggestion : Option PyVal
  confidence_score : Option PyVal

/-- Python `str()` of a value, used only inside the composite suggestion
f-string. String content of non-str values is a representation-level
stand-in (no claim depends on it; claims depend only on which fields are
written). -/
def pyFormatVal : PyVal → String
  | .pnone => "None"
  | .pbool b => if b then "True" else "False"
  | .pint n => toString n
  | .pfloat f => toString f.num ++ "/10^" ++ toString f.exp
  | .pstr s => s
  | .plist _ => "[...]"
  | .pdict _ => "\x7b...\x7d"

/-- `suggestion_data.get(k, '')`. -/
def pyGet (kvs : List (String × PyVal)) (k : String) (dflt : PyVal) : PyVal :=
  (pyDictLookup kvs k).getD dflt

/-- Result of the enrichment mutation: the article afterwards, plus whether
this pass wrote the suggestion / confidence fields. -/
structure EnrichOutcome where
  article : Article
  wrote_suggestion : Bool
  wrote_confidence : Bool

/-- The `if summary:` step of the pass: a truthy summary is stored. -/
def apply_summary (a : Article) (summary : Option String) : Article :=
  match summary with
  | some s => if s ≠ "" then { a with summary := some s } else a
  | Option.none => a

/-- The article mutation of `process_article_task` (src/src/tasks.py 166-201)
given the outcomes of `generate_summary` and
`generate_investment_suggestion`: a truthy summary is stored; a truthy
suggestion result is stored — for a dict, as the two-line composite of
key impact and suggestion, with the confidence score stored only when the
key is present and not `None`; for the old string format, verbatim. -/
def apply_enrichment (a : Article) (summary : Option String)
    (suggestion_data : Option PyVal) : EnrichOutcome :=
  let a1 := apply_summary a summary
  match suggestion_data with
  | Option.none => ⟨a1, false, false⟩
  | some sd =>
    if pyTruthyVal sd then
      match sd with
      | .pdict kvs =>
        let composite :=
          "Key Impact: " ++ pyFormatVal (pyGet kvs "key_impact" (.pstr "")) ++
          "\nInvestment Suggestion: " ++ pyFormatVal (pyGet kvs "suggestion" (.pstr ""))
        let a2 := { a1 with suggestion := some (.pstr composite) }
        match pyDictLookup kvs confidenceKey with
        | some v =>
          match v with
          | .pnone => ⟨a2, true, false⟩
          | _ => ⟨{ a2 with confidence_score := some v }, true, true⟩
        | Option.none => ⟨a2, true, false⟩
      | _ => ⟨{ a1 with suggestion := some sd }, true, false⟩
    else ⟨a1, false, false⟩

/-- The article store visible to `scrape_articles_task`: the (url,
hashed_url) pairs of the existing rows. -/
structure DbState where
  rows : List (String × String)

def article_exists_hash (db : DbState) (h : String) : Bool :=
  db.rows.any (fun r => r.2 = h)

def article_exists_url (db : DbState) (u : String) : Bool :=
  db.rows.any (fun r => r.1 = u)

/-- Loop state of the first pass of `scrape_articles_task`. Store-assigned
identifiers are modelled as the row count at insertion time (opaque and
unique, which is all the task uses). -/
structure ScrapeTaskState where
  db : DbState
  new_articles_count : Nat
  new_article_ids : List Nat

/-- One iteration of the create loop (src/src/tasks.py 66-98): skip when an
article with the same hashed url or the same exact url exists, otherwise
insert and record the new id; any exception inside the iteration (modelled:
a `hash_url` error) hits the `except/continue` and the candidate is neither
inserted nor queued. -/
def processCandidate (st : ScrapeTaskState) (url : String) : ScrapeTaskState :=
  match hash_url url with
  | .error _ => st
  | .ok h =>
    if article_exists_hash st.db h ∨ article_exists_url st.db url then st
    else
      { db := ⟨st.db.rows ++ [(url, h)]⟩,
        new_articles_count := st.new_articles_count + 1,
        new_article_ids := st.new_article_ids ++ [st.db.rows.length] }

/-- The success report of `scrape_articles_task` (src/src/tasks.py 108-113). -/
structure ScrapeReport where
  status : String
  new_articles : Nat
  skipped_articles : Nat
  processing_queued : Nat

/-- `scrape_articles_task` over already-scraped candidates: run the create
loop, then report `new_articles`, `skipped_articles = total - new`, and
`processing_queued = len(new_article_ids)` (the batch handed to
`batch_process_articles_task`). -/
def scrape_articles_task (db0 : DbState) (cands : List ScrapeResult) :
    ScrapeReport × ScrapeTaskState :=
  let fin := cands.foldl (fun st c => processCandidate st c.url) ⟨db0, 0, []⟩
  (⟨"success", fin.new_articles_count, cands.length - fin.new_articles_count,
    fin.new_article_ids.length⟩, fin)

end IW

namespace IW

/-! ## Claim theorems -/

/-- C3: `should_send_notification` equals the spec's gate description: false
when disabled, when recipients or sender are unconfigured, when the score is
absent, or when the score is below the threshold, and true otherwise; with
threshold 0.7 and a full configuration, 0.69 gates to false and 0.70 to true;
with an empty recipients list it is false for every score. -/
theorem should_send_notification_spec :
    (∀ cfg c, should_send_notification cfg c = shouldNotifySpec cfg c) ∧
    (∀ cfg : EmailConfig, cfg.enabled = true → cfg.recipients ≠ [] → cfg.from_email ≠ "" →
      cfg.confidence_threshold = ⟨7, 1⟩ →
      should_send_notification cfg (some ⟨69, 2⟩) = false ∧
      should_send_notification cfg (some ⟨70, 2⟩) = true) ∧
    (∀ cfg c, cfg.recipients = [] → should_send_notification cfg c = false) := by
  refine ⟨fun cfg c => ?_, fun cfg hen hrec hfrom hthr => ?_, fun cfg c hrec => ?_⟩
  · cases c with
    | none =>
      simp only [should_send_notification, shouldNotifySpec]
      split
      next => rfl
      next =>
        split
        next => rfl
        next => rfl
    | some x =>
      by_cases hen : cfg.enabled = true <;>
        by_cases hr : cfg.recipients.isEmpty = true <;>
          by_cases hf : cfg.from_email = "" <;>
            simp_all [should_send_notification, shouldNotifySpec, pfGe, pfLe, pfLt,
              List.isEmpty_eq_true, beq_iff_eq, ← decide_not, Int.not_lt]
  · constructor
    · have : cfg.recipients.isEmpty = false := by
        cases h : cfg.recipients with
        | nil => exact absurd h hrec
        | cons a l => simp
      simp [should_send_notification, hen, this, hfrom, hthr, pfGe, pfLe, pow10]
    · have : cfg.recipients.isEmpty = false := by
        cases h : cfg.recipients with
        | nil => exact absurd h hrec
        | cons a l => simp
      simp [should_send_notification, hen, this, hfrom, hthr, pfGe, pfLe, pow10]
  · have : cfg.recipients.isEmpty = true := by simp [hrec]
    by_cases hen : cfg.enabled <;> simp [should_send_notification, hen, this]

/-- Witness for C3 at a fully configured gate with threshold 0.7, and at an
empty recipients list. -/
theorem should_send_notification_spec_witness :
    should_send_notification ⟨true, ["x@y.io"], ⟨7, 1⟩, "noreply@y.io"⟩ (some ⟨69, 2⟩) = false ∧
    should_send_notification ⟨true, ["x@y.io"], ⟨7, 1⟩, "noreply@y.io"⟩ (some ⟨70, 2⟩) = true ∧
    should_send_notification ⟨true, [], ⟨7, 1⟩, "noreply@y.io"⟩ (some ⟨95, 2⟩) = false := by
  refine ⟨?_, ?_, ?_⟩
  · exact (should_send_notification_spec.2.1 ⟨true, ["x@y.io"], ⟨7, 1⟩, "noreply@y.io"⟩
      rfl (by decide) (by decide) rfl).1
  · exact (should_send_notification_spec.2.1 ⟨true, ["x@y.io"], ⟨7, 1⟩, "noreply@y.io"⟩
      rfl (by decide) (by decide) rfl).2
  · exact should_send_notification_spec.2.2 ⟨true, [], ⟨7, 1⟩, "noreply@y.io"⟩
      (some ⟨95, 2⟩) rfl

end IW


namespace IW

lemma apply_summary_suggestion (a : Article) (summary : Option String) :
    (apply_summary a summary).suggestion = a.suggestion := by
  cases summary with
  | none => rfl
  | some s =>
    by_cases hs : s = "" <;> simp [apply_summary, hs]

lemma apply_summary_confidence (a : Article) (summary : Option String) :
    (apply_summary a summary).confidence_score = a.confidence_score := by
  cases summary with
  | none => rfl
  | some s =>
    by_cases hs : s = "" <;> simp [apply_summary, hs]

/-- C4: `scrape_all` fetches the discovered links in order and stops the whole
loop at the first link whose fetch yields no result; in particular with 3
fresh links followed by a stale one, it returns exactly 3 results and fetches
exactly the first 4 links — links 5 onward are never fetched. -/
theorem scrape_all_early_exit :
    (∀ (fetch : String → Option ScrapeResult) pre l post,
      (∀ x ∈ pre, (fetch x).isSome) → fetch l = Option.none →
      scrape_all_go fetch (pre ++ l :: post) = (pre.filterMap fetch, pre ++ [l])) ∧
    (∀ (fetch : String → Option ScrapeResult) l1 l2 l3 l4 rest a1 a2 a3,
      fetch l1 = some a1 → fetch l2 = some a2 → fetch l3 = some a3 →
      fetch l4 = Option.none →
      scrape_all fetch (l1 :: l2 :: l3 :: l4 :: rest) = [a1, a2, a3] ∧
      scrape_all_fetched fetch (l1 :: l2 :: l3 :: l4 :: rest) = [l1, l2, l3, l4]) := by
  constructor
  · intro fetch pre l post hpre hl
    induction pre with
    | nil => simp [scrape_all_go, hl]
    | cons x xs ih =>
      have hx : (fetch x).isSome := hpre x (by simp)
      obtain ⟨a, ha⟩ := Option.isSome_iff_exists.mp hx
      have ihx := ih (fun y hy => hpre y (by simp [hy]))
      simp [scrape_all_go, ha, ihx, List.filterMap_cons]
  · intro fetch l1 l2 l3 l4 rest a1 a2 a3 h1 h2 h3 h4
    constructor
    · simp [scrape_all, scrape_all_go, h1, h2, h3, h4]
    · simp [scrape_all_fetched, scrape_all_go, h1, h2, h3, h4]

/-- Witness for C4: a concrete source whose links 1-3 extract fresh articles,
link 4 is older than the 24-hour window (so `scrape_article` yields none), and
links 5-6 exist; exactly 3 results come back and exactly links 1-4 are fetched. -/
theorem scrape_all_early_exit_witness :
    scrape_all
      (scrape_article "TechCrunch" 1000000 (fun url =>
        if url = "u4" then Except.ok ⟨"T4", "B4", some 900000⟩
        else Except.ok ⟨"T" ++ pyDrop url 1, "B" ++ pyDrop url 1, some 999000⟩))
      ["u1", "u2", "u3", "u4", "u5", "u6"] =
      [⟨"T1", "u1", "B1", 999000, "TechCrunch"⟩,
       ⟨"T2", "u2", "B2", 999000, "TechCrunch"⟩,
       ⟨"T3", "u3", "B3", 999000, "TechCrunch"⟩] ∧
    scrape_all_fetched
      (scrape_article "TechCrunch" 1000000 (fun url =>
        if url = "u4" then Except.ok ⟨"T4", "B4", some 900000⟩
        else Except.ok ⟨"T" ++ pyDrop url 1, "B" ++ pyDrop url 1, some 999000⟩))
      ["u1", "u2", "u3", "u4", "u5", "u6"] = ["u1", "u2", "u3", "u4"] := by
  exact scrape_all_early_exit.2 _ "u1" "u2" "u3" "u4" ["u5", "u6"] _ _ _
    (by decide) (by decide) (by decide) (by decide)

/-- C8: link discovery fails soft — `get_article_links` returns the empty list
on any raised error — and scraper failures are isolated:
`scrape_all_sources` is the concatenation of the successful runs, so one
failing source contributes zero results and removing it leaves the other
sources' results unchanged. -/
theorem scraping_failures_isolated :
    (∀ e, get_article_links (.error e) = []) ∧
    (∀ runs, scrape_all_sources runs =
      (runs.map (fun r => match r with
        | .ok a => a
        | .error _ => ([] : List ScrapeResult))).flatten) ∧
    (∀ pre post e, scrape_all_sources (pre ++ .error e :: post) =
      scrape_all_sources (pre ++ post)) := by
  have fold : ∀ (runs : List (Except Unit (List ScrapeResult)))
      (acc : List ScrapeResult),
      runs.foldl (fun acc r =>
        match r with
        | .ok articles => acc ++ articles
        | .error _ => acc) acc =
      acc ++ (runs.map (fun r => match r with
        | Except.ok a => a
        | Except.error _ => ([] : List ScrapeResult))).flatten := by
    intro runs
    induction runs with
    | nil => intro acc; simp
    | cons r rest ih =>
      intro acc
      cases r with
      | ok a => simp [List.foldl_cons, ih, List.append_assoc]
      | error e => simp [List.foldl_cons, ih]
  refine ⟨fun e => rfl, fun runs => ?_, fun pre post e => ?_⟩
  · simpa using fold runs []
  · show List.foldl _ [] _ = List.foldl _ [] _
    rw [fold, fold]
    simp

/-- C9: whenever the enrichment pass writes a confidence score it has written
the suggestion in the same pass (and the stored suggestion is present); and
the pass preserves the invariant that a present confidence score comes with a
present suggestion. -/
theorem enrichment_confidence_needs_suggestion :
    ∀ a summary sd,
      ((apply_enrichment a summary sd).wrote_confidence = true →
        (apply_enrichment a summary sd).wrote_suggestion = true ∧
        (apply_enrichment a summary sd).article.suggestion ≠ Option.none) ∧
      ((a.confidence_score ≠ Option.none → a.suggestion ≠ Option.none) →
        (apply_enrichment a summary sd).article.confidence_score ≠ Option.none →
        (apply_enrichment a summary sd).article.suggestion ≠ Option.none) := by
  intro a summary sd
  cases sd with
  | none =>
    constructor
    · intro h
      simp [apply_enrichment] at h
    · intro hinv hc
      simp only [apply_enrichment, apply_summary_confidence] at hc
      simp only [apply_enrichment, apply_summary_suggestion]
      exact hinv hc
  | some v =>
    by_cases ht : pyTruthyVal v = true
    · cases v with
      | pnone => simp [pyTruthyVal] at ht
      | pdict kvs =>
        rcases hlk : pyDictLookup kvs confidenceKey with _ | w
        · exact ⟨fun h => by simp [apply_enrichment, ht, hlk] at h,
            fun hinv hc => by simp [apply_enrichment, ht, hlk]⟩
        · cases w <;>
            exact ⟨fun h => by simp [apply_enrichment, ht, hlk] at h ⊢,
              fun hinv hc => by simp [apply_enrichment, ht, hlk]⟩
      | pbool b =>
        refine ⟨fun h => by simp [apply_enrichment, ht] at h, fun hinv hc => ?_⟩
        simp [apply_enrichment, ht]
      | pint n =>
        refine ⟨fun h => by simp [apply_enrichment, ht] at h, fun hinv hc => ?_⟩
        simp [apply_enrichment, ht]
      | pfloat q =>
        refine ⟨fun h => by simp [apply_enrichment, ht] at h, fun hinv hc => ?_⟩
        simp [apply_enrichment, ht]
      | pstr s =>
        refine ⟨fun h => by simp [apply_enrichment, ht] at h, fun hinv hc => ?_⟩
        simp [apply_enrichment, ht]
      | plist xs =>
        refine ⟨fun h => by simp [apply_enrichment, ht] at h, fun hinv hc => ?_⟩
        simp [apply_enrichment, ht]
    · have ht' : pyTruthyVal v = false := Bool.not_eq_true _ ▸ Bool.of_not_eq_true ht
      constructor
      · intro h
        simp [apply_enrichment, ht'] at h
      · intro hinv hc
        simp only [apply_enrichment, ht', Bool.false_eq_true, if_false,
          apply_summary_confidence] at hc
        simp only [apply_enrichment, ht', Bool.false_eq_true, if_false,
          apply_summary_suggestion]
        exact hinv hc

/-- Witness for C9: a blank article enriched with a structured suggestion dict
carrying a confidence score ends up with the suggestion present. -/
theorem enrichment_confidence_needs_suggestion_witness :
    (apply_enrichment ⟨"t", "u", "h", "c", Option.none, Option.none, Option.none⟩
      (some "S")
      (some (.pdict [("key_impact", .pstr "x"), ("suggestion", .pstr "y"),
        ("confidence_score", .pfloat ⟨8, 1⟩)]))).article.suggestion ≠ Option.none := by
  exact ((enrichment_confidence_needs_suggestion
    ⟨"t", "u", "h", "c", Option.none, Option.none, Option.none⟩ (some "S")
    (some (.pdict [("key_impact", .pstr "x"), ("suggestion", .pstr "y"),
      ("confidence_score", .pfloat ⟨8, 1⟩)]))).1 (by rfl)).2

end IW

namespace IW

lemma processCandidate_cases (st : ScrapeTaskState) (url : String) :
    processCandidate st url = st ∨
    ∃ h, processCandidate st url =
      ⟨⟨st.db.rows ++ [(url, h)]⟩, st.new_articles_count + 1,
        st.new_article_ids ++ [st.db.rows.length]⟩ := by
  rcases hu : hash_url url with e | h
  · simp only [processCandidate, hu]
    exact Or.inl trivial
  · by_cases hex : (article_exists_hash st.db h ∨ article_exists_url st.db url)
    · simp only [processCandidate, hu, if_pos hex]
      exact Or.inl trivial
    · simp only [processCandidate, hu, if_neg hex]
      exact Or.inr ⟨h, rfl⟩

lemma scrape_fold_inv (cands : List ScrapeResult) :
    ∀ st : ScrapeTaskState,
      st.new_articles_count = st.new_article_ids.length →
      List.Pairwise (· < ·) st.new_article_ids →
      (∀ i ∈ st.new_article_ids, i < st.db.rows.length) →
      (cands.foldl (fun s c => processCandidate s c.url) st).new_articles_count =
        (cands.foldl (fun s c => processCandidate s c.url) st).new_article_ids.length ∧
      List.Pairwise (· < ·)
        (cands.foldl (fun s c => processCandidate s c.url) st).new_article_ids ∧
      (∀ i ∈ (cands.foldl (fun s c => processCandidate s c.url) st).new_article_ids,
        i < (cands.foldl (fun s c => processCandidate s c.url) st).db.rows.length) ∧
      ∃ d ≤ cands.length,
        (cands.foldl (fun s c => processCandidate s c.url) st).new_articles_count =
          st.new_articles_count + d ∧
        (cands.foldl (fun s c => processCandidate s c.url) st).db.rows.length =
          st.db.rows.length + d := by
  induction cands with
  | nil =>
    intro st h1 h2 h3
    exact ⟨h1, h2, h3, 0, Nat.zero_le _, rfl, rfl⟩
  | cons c rest ih =>
    intro st h1 h2 h3
    rcases processCandidate_cases st c.url with hskip | ⟨hh, hins⟩
    · have := ih st h1 h2 h3
      simp only [List.foldl_cons, hskip]
      obtain ⟨g1, g2, g3, d, hd, g4, g5⟩ := this
      exact ⟨g1, g2, g3, d, Nat.le_succ_of_le hd, g4, g5⟩
    · set st2 : ScrapeTaskState :=
        ⟨⟨st.db.rows ++ [(c.url, hh)]⟩, st.new_articles_count + 1,
          st.new_article_ids ++ [st.db.rows.length]⟩ with hst2
      have k1 : st2.new_articles_count = st2.new_article_ids.length := by
        simp [hst2, h1]
      have k2 : List.Pairwise (· < ·) st2.new_article_ids := by
        rw [hst2]
        refine List.pairwise_append.mpr ⟨h2, List.pairwise_singleton _ _, ?_⟩
        intro a ha b hb
        rw [List.mem_singleton] at hb
        subst hb
        exact h3 a ha
      have k3 : ∀ i ∈ st2.new_article_ids, i < st2.db.rows.length := by
        intro i hi
        rw [hst2] at hi ⊢
        simp only [List.mem_append, List.mem_singleton] at hi
        simp only [List.length_append, List.length_singleton]
        rcases hi with hi | rfl
        · exact Nat.lt_succ_of_lt (h3 i hi)
        · exact Nat.lt_succ_self _
      have := ih st2 k1 k2 k3
      simp only [List.foldl_cons, hins, ← hst2]
      obtain ⟨g1, g2, g3, d, hd, g4, g5⟩ := this
      refine ⟨g1, g2, g3, d + 1, Nat.succ_le_succ hd, ?_, ?_⟩
      · rw [g4]
        simp [hst2]
        omega
      · rw [g5]
        simp [hst2]
        omega

/-- C10: every successful `scrape_articles_task` run reports consistent
counts: `new_articles + skipped_articles` is the number of scraped
candidates, `processing_queued` equals `new_articles`, the store grew by
exactly `new_articles` rows (each candidate is inserted at most once), and
the queued identifiers are pairwise distinct. -/
theorem scrape_task_accounting :
    ∀ db0 cands,
      (scrape_articles_task db0 cands).1.status = "success" ∧
      (scrape_articles_task db0 cands).1.new_articles +
        (scrape_articles_task db0 cands).1.skipped_articles = cands.length ∧
      (scrape_articles_task db0 cands).1.processing_queued =
        (scrape_articles_task db0 cands).1.new_articles ∧
      (scrape_articles_task db0 cands).2.db.rows.length =
        db0.rows.length + (scrape_articles_task db0 cands).1.new_articles ∧
      (scrape_articles_task db0 cands).2.new_article_ids.Nodup := by
  intro db0 cands
  have base1 : (⟨db0, 0, []⟩ : ScrapeTaskState).new_articles_count =
      (⟨db0, 0, []⟩ : ScrapeTaskState).new_article_ids.length := rfl
  have base2 : List.Pairwise (· < ·)
      (⟨db0, 0, []⟩ : ScrapeTaskState).new_article_ids := List.Pairwise.nil
  have base3 : ∀ i ∈ (⟨db0, 0, []⟩ : ScrapeTaskState).new_article_ids,
      i < (⟨db0, 0, []⟩ : ScrapeTaskState).db.rows.length := by
    intro i hi
    simp at hi
  obtain ⟨g1, g2, g3, d, hd, g4, g5⟩ := scrape_fold_inv cands ⟨db0, 0, []⟩ base1 base2 base3
  simp only [Nat.zero_add] at g4
  refine ⟨rfl, ?_, ?_, ?_, ?_⟩
  · show (cands.foldl (fun s c => processCandidate s c.url) ⟨db0, 0, []⟩).new_articles_count +
      (cands.length -
        (cands.foldl (fun s c => processCandidate s c.url) ⟨db0, 0, []⟩).new_articles_count) =
      cands.length
    rw [g4]
    omega
  · show (cands.foldl (fun s c => processCandidate s c.url) ⟨db0, 0, []⟩).new_article_ids.length =
      (cands.foldl (fun s c => processCandidate s c.url) ⟨db0, 0, []⟩).new_articles_count
    exact g1.symm
  · show (cands.foldl (fun s c => processCandidate s c.url) ⟨db0, 0, []⟩).db.rows.length =
      db0.rows.length +
        (cands.foldl (fun s c => processCandidate s c.url) ⟨db0, 0, []⟩).new_articles_count
    rw [g5, g4]
  · exact g2.imp (fun hlt => Nat.ne_of_lt hlt)

end IW

namespace IW

set_option maxRecDepth 100000

/-- C5: a provider response that is not valid JSON and on which the
line-oriented fallback finds neither a key impact nor a suggestion does not
raise: the result is the record with the whole raw response as the suggestion
(so it is non-empty whenever the response is) and no confidence score. -/
theorem malformed_response_raw_fallback :
    ∀ response e st,
      json_loads response = .error e →
      lineFold ⟨"", "", .pnone⟩ (pySplitLines (pyStrip response)) = .ok st →
      st.key_impact = "" → st.suggestion = "" →
      parse_investment_suggestion response =
        .ok (.pdict [("key_impact", .pstr "Analysis completed"),
                     ("suggestion", .pstr response),
                     ("confidence_score", .pnone)]) ∧
      (response ≠ "" → PyVal.pstr response ≠ PyVal.pstr "") := by
  intro response e st hjson hfold hki hsg
  constructor
  · simp only [parse_investment_suggestion, hjson, textBranch, hfold, hki, hsg]
    simp
  · intro hne hcontra
    injection hcontra with h
    exact hne h

/-- Witness for C5 at a concrete malformed response. -/
theorem malformed_response_raw_fallback_witness :
    parse_investment_suggestion "The market will maybe rally." =
      .ok (.pdict [("key_impact", .pstr "Analysis completed"),
                   ("suggestion", .pstr "The market will maybe rally."),
                   ("confidence_score", .pnone)]) := by
  exact (malformed_response_raw_fallback "The market will maybe rally." .decodeError
    ⟨"", "", .pnone⟩ (by rfl) (by rfl) rfl rfl).1

/-- C6: with no provider credential (`client = None`) or a failing provider
call, `_call_llm_api` returns the fixed placeholder for the task kind instead
of raising; the summary placeholder is the fixed text, and the
investment-suggestion placeholder parses to a structured record whose
confidence score is exactly 0.5. -/
theorem placeholder_on_provider_unavailable :
    (∀ pr p t, call_llm_api Option.none pr p t = get_placeholder_response t) ∧
    (∀ c e p t, call_llm_api (some c) (.error e) p t = get_placeholder_response t) ∧
    get_placeholder_response "summary" = placeholder_summary_text ∧
    parse_investment_suggestion (get_placeholder_response "investment_suggestion") =
      .ok (.pdict
        [("key_impact",
          .pstr "Technology sector developments may influence market sentiment"),
         ("suggestion",
          .pstr "Monitor related stocks and consider sector-specific ETFs for potential opportunities"),
         ("confidence_score", .pfloat ⟨5, 1⟩)]) ∧
    pfToRat ⟨5, 1⟩ = 1 / 2 := by
  refine ⟨fun pr p t => rfl, fun c e p t => rfl, rfl, by rfl, ?_⟩
  norm_num [pfToRat]

end IW

namespace IW

lemma find_set_mem (k v : String) :
    ∀ cache : List (String × String), cache.any (fun p => p.1 = k) = true →
      (cache.map (fun p => if p.1 = k then (k, v) else p)).find?
        (fun p => p.1 = k) = some (k, v) := by
  intro cache
  induction cache with
  | nil => simp
  | cons p rest ih =>
    intro h
    by_cases hp : p.1 = k
    · simp [hp]
    · have h' : rest.any (fun q => q.1 = k) = true := by
        simp only [List.any_cons, hp] at h
        simpa using h
      simpa [hp] using ih h'

lemma find_append_new (k v : String) :
    ∀ cache : List (String × String), cache.any (fun p => p.1 = k) = false →
      (cache ++ [(k, v)]).find? (fun p => p.1 = k) = some (k, v) := by
  intro cache
  induction cache with
  | nil => simp
  | cons p rest ih =>
    intro h
    simp only [List.any_cons, Bool.or_eq_false_iff] at h
    obtain ⟨hp, hrest⟩ := h
    have hp' : ¬ p.1 = k := by simpa using hp
    simpa [hp'] using ih hrest

lemma cacheGet_set (cache : List (String × String)) (k v : String) :
    cacheGet (cacheSet cache k v) k = some v := by
  by_cases h : cache.any (fun p => p.1 = k) = true
  · simp only [cacheSet, if_pos h, cacheGet, find_set_mem k v cache h]
    rfl
  · have h' : cache.any (fun p => p.1 = k) = false := by
      cases hx : cache.any (fun p => p.1 = k)
      · rfl
      · exact absurd hx h
    simp only [cacheSet, h', Bool.false_eq_true, if_false, cacheGet,
      find_append_new k v cache h']
    rfl

/-- C7: caching makes `generate_summary` idempotent — once a first run has
produced a truthy (cached) result, a second run with the same content within
the TTL returns the same result from the cache, leaves the cache unchanged,
and attempts no provider request; across the two runs at most one real
provider call is made for the (content, "summary") cache key. (The cache
model holds exactly the unexpired entries, so the TTL is the scope of the
state.) -/
theorem enrichment_cache_idempotent :
    ∀ cache client pr1 pr2 content,
      (generate_summary cache client pr1 content).result ≠ "" →
      generate_summary (generate_summary cache client pr1 content).cache client pr2 content =
        ⟨(generate_summary cache client pr1 content).result,
         (generate_summary cache client pr1 content).cache, false⟩ ∧
      (generate_summary cache client pr1 content).api_called.toNat +
        (generate_summary (generate_summary cache client pr1 content).cache
          client pr2 content).api_called.toNat ≤ 1 := by
  intro cache client pr1 pr2 content hne
  have key := get_cache_key content "summary"
  have step : ∀ pr : Except Unit String,
      generate_summary (generate_summary cache client pr1 content).cache client pr content =
        ⟨(generate_summary cache client pr1 content).result,
         (generate_summary cache client pr1 content).cache, false⟩ := by
    intro pr
    rcases hl : cacheGet cache (get_cache_key content "summary") with _ | v
    · by_cases hr : call_llm_api client pr1
          (summary_prompt (truncate_content content 2000)) "summary" = ""
      · exfalso
        apply hne
        simp [generate_summary, hl, hr]
      · have h1 : generate_summary cache client pr1 content =
            ⟨call_llm_api client pr1 (summary_prompt (truncate_content content 2000)) "summary",
             cacheSet cache (get_cache_key content "summary")
               (call_llm_api client pr1 (summary_prompt (truncate_content content 2000)) "summary"),
             client.isSome⟩ := by
          simp [generate_summary, hl, hr]
        rw [h1]
        simp [generate_summary, cacheGet_set, hr]
    · by_cases hv : v = ""
      · by_cases hr : call_llm_api client pr1
            (summary_prompt (truncate_content content 2000)) "summary" = ""
        · exfalso
          apply hne
          simp [generate_summary, hl, hv, hr]
        · have h1 : generate_summary cache client pr1 content =
              ⟨call_llm_api client pr1 (summary_prompt (truncate_content content 2000)) "summary",
               cacheSet cache (get_cache_key content "summary")
                 (call_llm_api client pr1 (summary_prompt (truncate_content content 2000)) "summary"),
               client.isSome⟩ := by
            simp [generate_summary, hl, hv, hr]
          rw [h1]
          simp [generate_summary, cacheGet_set, hr]
      · have h1 : generate_summary cache client pr1 content = ⟨v, cache, false⟩ := by
          simp [generate_summary, hl, hv]
        rw [h1]
        simp [generate_summary, hl, hv]
  refine ⟨step pr2, ?_⟩
  rw [step pr2]
  cases hapi : (generate_summary cache client pr1 content).api_called <;> simp

/-- Witness for C7: a concrete first run (empty cache, client configured,
provider answers) followed by a second run; the second returns the cached
summary without any provider call. -/
theorem enrichment_cache_idempotent_witness :
    generate_summary
        (generate_summary [] (some ()) (Except.ok "A fine summary.") "Some article body.").cache
        (some ()) (Except.error ()) "Some article body." =
      ⟨(generate_summary [] (some ()) (Except.ok "A fine summary.") "Some article body.").result,
       (generate_summary [] (some ()) (Except.ok "A fine summary.") "Some article body.").cache,
       false⟩ := by
  exact (enrichment_cache_idempotent [] (some ()) (Except.ok "A fine summary.")
    (Except.error ()) "Some article body." (by decide)).1

end IW

namespace IW

/-- The confidence entry of a parse result: the value stored under
`confidence_score` when the result is a dict, nothing otherwise. -/
def confidenceEntry (r : PyVal) : Option PyVal :=
  match r with
  | .pdict kvs => pyDictLookup kvs confidenceKey
  | _ => Option.none

def pfInUnitInterval (f : PyFloatVal) : Bool := pfLe ⟨0, 0⟩ f && pfLe f ⟨1, 0⟩

/-- Claim C2 as stated, at one parse result: the confidence entry is absent
(missing key or `None`) or a float lying in [0,1]. -/
def confidenceInRangeB (r : PyVal) : Bool :=
  match confidenceEntry r with
  | some (.pfloat q) => pfInUnitInterval q
  | some .pnone => true
  | some _ => false
  | Option.none => true

/-- The amended property: the confidence entry is absent (missing key or
`None`) or a float — with no range restriction. -/
def confidenceFloatOrAbsentB (r : PyVal) : Bool :=
  match confidenceEntry r with
  | some (.pfloat _) => true
  | some .pnone => true
  | some _ => false
  | Option.none => true

lemma pv_find_set_mem (k : String) (v : PyVal) :
    ∀ kvs : List (String × PyVal), kvs.any (fun p => p.1 = k) = true →
      (kvs.map (fun p => if p.1 = k then (k, v) else p)).find?
        (fun p => p.1 = k) = some (k, v) := by
  intro kvs
  induction kvs with
  | nil => simp
  | cons p rest ih =>
    intro h
    by_cases hp : p.1 = k
    · simp [hp]
    · have h' : rest.any (fun q => q.1 = k) = true := by
        simp only [List.any_cons, hp] at h
        simpa using h
      simpa [hp] using ih h'

lemma pv_find_append_new (k : String) (v : PyVal) :
    ∀ kvs : List (String × PyVal), kvs.any (fun p => p.1 = k) = false →
      (kvs ++ [(k, v)]).find? (fun p => p.1 = k) = some (k, v) := by
  intro kvs
  induction kvs with
  | nil => simp
  | cons p rest ih =>
    intro h
    simp only [List.any_cons, Bool.or_eq_false_iff] at h
    obtain ⟨hp, hrest⟩ := h
    have hp' : ¬ p.1 = k := by simpa using hp
    simpa [hp'] using ih hrest

lemma pyDictLookup_set (kvs : List (String × PyVal)) (k : String) (v : PyVal) :
    pyDictLookup (pyDictSet kvs k v) k = some v := by
  by_cases h : kvs.any (fun p => p.1 = k) = true
  · simp only [pyDictSet, if_pos h, pyDictLookup, pv_find_set_mem k v kvs h]
    rfl
  · have h' : kvs.any (fun p => p.1 = k) = false := by
      cases hx : kvs.any (fun p => p.1 = k)
      · rfl
      · exact absurd hx h
    simp only [pyDictSet, h', Bool.false_eq_true, if_false, pyDictLookup,
      pv_find_append_new k v kvs h']
    rfl

lemma pyDictLookup_none_of_any_false (k : String) :
    ∀ kvs : List (String × PyVal), kvs.any (fun p => p.1 = k) = false →
      pyDictLookup kvs k = Option.none := by
  intro kvs
  induction kvs with
  | nil => intro _; rfl
  | cons p rest ih =>
    intro h
    simp only [List.any_cons, Bool.or_eq_false_iff] at h
    obtain ⟨hp, hrest⟩ := h
    have hp' : ¬ p.1 = k := by simpa using hp
    simpa [pyDictLookup, hp'] using ih hrest

/-- Shape of the confidence slot in the fallback loop: `None` or a float. -/
def confShape (v : PyVal) : Prop := v = .pnone ∨ ∃ q, v = .pfloat q

lemma processLine_conf (st : LineState) (l : String) (st2 : LineState) :
    processLine st l = .ok st2 → confShape st.confidence_score →
    confShape st2.confidence_score := by
  intro h hs
  unfold processLine at h
  dsimp only [] at h
  split_ifs at h
  · rcases hsp : pySplitOnce ':' (pyStrip l) with _ | pair
    · rw [hsp] at h
      cases h
    · rw [hsp] at h
      cases h
      exact hs
  · rcases hsp : pySplitOnce ':' (pyStrip l) with _ | pair
    · rw [hsp] at h
      cases h
    · rw [hsp] at h
      cases h
      exact hs
  · rcases hsp : pySplitOnce ':' (pyStrip l) with _ | pair
    · rw [hsp] at h
      cases h
    · obtain ⟨pre, after⟩ := pair
      simp only [hsp] at h
      rcases hf : pyFloatOfString (stripQuotes (pyStrip after)) with _ | q
      · simp only [hf] at h
        cases h
        exact Or.inl rfl
      · simp only [hf] at h
        cases h
        exact Or.inr ⟨q, rfl⟩
  · cases h
    exact hs

lemma lineFold_conf :
    ∀ (lines : List String) (st st2 : LineState),
      lineFold st lines = .ok st2 → confShape st.confidence_score →
      confShape st2.confidence_score := by
  intro lines
  induction lines with
  | nil =>
    intro st st2 h hs
    cases h
    exact hs
  | cons l rest ih =>
    intro st st2 h hs
    unfold lineFold at h
    rcases hp : processLine st l with e | stm
    · rw [hp] at h
      cases h
    · rw [hp] at h
      exact ih stm st2 h (processLine_conf st l stm hp hs)

lemma confidenceEntry_triple (ki sg : String) (cv : PyVal) :
    confidenceEntry (.pdict [("key_impact", .pstr ki), ("suggestion", .pstr sg),
      ("confidence_score", cv)]) = some cv := rfl

/-- C2 (amended): for every provider response on which
`_parse_investment_suggestion` returns, the returned record's confidence
entry is either absent (missing or `None`) or a float — a non-numeric
confidence value in the response is turned into `None` rather than kept or
raised through the coercion. (The claim's additional `[0,1]` bound does not
hold; see the counterexample.) -/
theorem parse_confidence_float_or_absent :
    ∀ response r, parse_investment_suggestion response = .ok r →
      confidenceFloatOrAbsentB r = true := by
  intro response r h
  rcases hj : json_loads response with e | parsed
  · -- JSON decode failed: text fallback
    simp only [parse_investment_suggestion, hj] at h
    rcases hfold : lineFold ⟨"", "", .pnone⟩ (pySplitLines (pyStrip response)) with e2 | st
    · simp only [textBranch, hfold] at h
      cases h
    · simp only [textBranch, hfold] at h
      by_cases hcond : (st.key_impact = "" ∧ st.suggestion = "")
      · rw [if_pos hcond] at h
        cases h
        rfl
      · rw [if_neg hcond] at h
        cases h
        have hshape : confShape st.confidence_score :=
          lineFold_conf _ _ _ hfold (Or.inl rfl)
        rcases hshape with hn | ⟨q, hq⟩
        · simp [confidenceFloatOrAbsentB, confidenceEntry_triple, hn]
        · simp [confidenceFloatOrAbsentB, confidenceEntry_triple, hq]
  · -- JSON decoded: the coercion branch
    simp only [parse_investment_suggestion, hj] at h
    rcases hc : pyContainsVal confidenceKey parsed with e2 | b
    · simp only [jsonBranch, hc] at h
      cases h
    · cases b with
      | false =>
        simp only [jsonBranch, hc] at h
        cases parsed with
        | pdict kvs =>
          cases h
          have hany : kvs.any (fun p => p.1 = confidenceKey) = false := by
            have heq : pyContainsVal confidenceKey (.pdict kvs) =
                .ok (kvs.any (fun p => p.1 = confidenceKey)) := rfl
            rw [heq] at hc
            cases hx : kvs.any (fun p => p.1 = confidenceKey)
            · rfl
            · rw [hx] at hc
              cases hc
          simp [confidenceFloatOrAbsentB, confidenceEntry,
            pyDictLookup_none_of_any_false confidenceKey kvs hany]
        | pnone => cases h; rfl
        | pbool bb => cases h; rfl
        | pint n => cases h; rfl
        | pfloat q => cases h; rfl
        | pstr s => cases h; rfl
        | plist xs => cases h; rfl
      | true =>
        cases parsed with
        | pdict kvs =>
          rcases hf : pyFloat ((pyDictLookup kvs confidenceKey).getD .pnone) with e3 | q
          · simp only [jsonBranch, hc, hf] at h
            cases h
            simp [confidenceFloatOrAbsentB, confidenceEntry,
              pyDictLookup_set kvs confidenceKey PyVal.pnone]
          · simp only [jsonBranch, hc, hf] at h
            cases h
            simp [confidenceFloatOrAbsentB, confidenceEntry,
              pyDictLookup_set kvs confidenceKey (PyVal.pfloat q)]
        | pnone => simp [jsonBranch, hc] at h
        | pbool bb => simp [jsonBranch, hc] at h
        | pint n => simp [jsonBranch, hc] at h
        | pfloat q => simp [jsonBranch, hc] at h
        | pstr s => simp [jsonBranch, hc] at h
        | plist xs => simp [jsonBranch, hc] at h

/-- Witness for the amended C2: a non-numeric confidence value in the
response is stored as `None` (treated as absent). -/
theorem parse_confidence_float_or_absent_witness :
    confidenceFloatOrAbsentB
      (.pdict [("confidence_score", PyVal.pnone)]) = true := by
  exact parse_confidence_float_or_absent
    "\x7b\x22confidence_score\x22: \x22abc\x22\x7d"
    (.pdict [("confidence_score", PyVal.pnone)]) (by rfl)

/-- Counterexample for C2 as stated: the response
`{"confidence_score": 1.5}` parses without raising, and the returned record
keeps the out-of-range float 1.5 — the confidence entry is neither absent
nor inside [0,1]. -/
theorem parse_confidence_range_counterexample :
    parse_investment_suggestion "\x7b\x22confidence_score\x22: 1.5\x7d" =
      .ok (.pdict [("confidence_score", .pfloat ⟨15, 1⟩)]) ∧
    confidenceInRangeB (.pdict [("confidence_score", .pfloat ⟨15, 1⟩)]) = false ∧
    pfToRat ⟨15, 1⟩ = 3 / 2 := by
  refine ⟨by rfl, by rfl, ?_⟩
  norm_num [pfToRat]

end IW

namespace IW

set_option maxRecDepth 400000

/-- Modelled from the spec as amended: normalize by lower-casing scheme and
host, stripping ALL trailing slashes from the path (an empty path becoming
"/"), keeping params, query and fragment verbatim. Comparator for the amended
refinement claim C1. -/
def specNormalizeAllSlashes (url : String) : Except String String := do
  let p ← urlparse url
  let path := pyRstrip (fun c => c = '/') p.path
  let path := if path = "" then "/" else path
  return urlunparse (pyLower p.scheme) (pyLower p.netloc) path p.params p.query p.fragment

lemma pyRstrip_append_slash (s : String) :
    pyRstrip (fun c => c = '/') (s ++ "/") = pyRstrip (fun c => c = '/') s := by
  simp [pyRstrip, String.data_append]

/-- C1 (amended): `hash_url(u)` is the hex SHA-256 digest of the URL obtained
from `u` by lower-casing the scheme and host, stripping ALL trailing slashes
from the path (an empty path becoming "/"), and keeping params, query and
fragment verbatim; consequently any two URLs whose parses differ only by
scheme case, host case, or a single trailing slash on the path produce
identical fingerprints. The function is pure (a plain function of its input). -/
theorem hash_url_normalization :
    (∀ u, hash_url u = (specNormalizeAllSlashes u).map sha256Hex) ∧
    (∀ u1 u2 p1 p2, urlparse u1 = .ok p1 → urlparse u2 = .ok p2 →
      pyLower p1.scheme = pyLower p2.scheme →
      pyLower p1.netloc = pyLower p2.netloc →
      (p1.path = p2.path ∨ p1.path = p2.path ++ "/" ∨ p2.path = p1.path ++ "/") →
      p1.params = p2.params → p1.query = p2.query → p1.fragment = p2.fragment →
      hash_url u1 = hash_url u2) := by
  constructor
  · intro u
    rcases hp : urlparse u with e | p <;>
      simp [hash_url, normalizeUrl, specNormalizeAllSlashes, hp, Except.map]
  · intro u1 u2 p1 p2 h1 h2 hs hn hpath hpar hq hf
    have hrstrip : pyRstrip (fun c => c = '/') p1.path =
        pyRstrip (fun c => c = '/') p2.path := by
      rcases hpath with he | h12 | h21
      · rw [he]
      · rw [h12, pyRstrip_append_slash]
      · rw [h21, pyRstrip_append_slash]
    simp [hash_url, normalizeUrl, h1, h2, hs, hn, hrstrip, hpar, hq, hf]

/-- Witness for the amended C1: a URL differing from another only by scheme
case, host case, and one trailing slash fingerprints identically. -/
theorem hash_url_normalization_witness :
    hash_url "HTTP://Example.COM/news/" = hash_url "http://example.com/news" := by
  exact hash_url_normalization.2 "HTTP://Example.COM/news/" "http://example.com/news"
    ⟨"http", "Example.COM", "/news/", "", "", ""⟩
    ⟨"http", "example.com", "/news", "", "", ""⟩
    (by decide) (by decide) (by decide) (by decide)
    (Or.inr (Or.inl (by decide))) rfl rfl rfl

/-- Counterexample for C1 as stated: the code's `path.rstrip('/')` removes
ALL trailing slashes, not a single one, so for `http://example.com/a//` the
digest actually produced differs from the digest of the single-slash-stripped
normalization the claim describes. -/
theorem hash_url_single_slash_counterexample :
    hash_url "http://example.com/a//" =
      .ok "5bd48fa66118084cc32779267a31116dc05c70bcbca0f28e990cd58ce10afeae" ∧
    specHashSingleSlash "http://example.com/a//" =
      .ok "bc56e4c63d9b0e2f277e2eb3c101638bd772ea45b518a06ed95aa15deb4ecef2" ∧
    hash_url "http://example.com/a//" ≠ specHashSingleSlash "http://example.com/a//" := by
  have h1 : hash_url "http://example.com/a//" =
      Except.ok "5bd48fa66118084cc32779267a31116dc05c70bcbca0f28e990cd58ce10afeae" := by
    decide
  have h2 : specHashSingleSlash "http://example.com/a//" =
      Except.ok "bc56e4c63d9b0e2f277e2eb3c101638bd772ea45b518a06ed95aa15deb4ecef2" := by
    decide
  refine ⟨h1, h2, ?_⟩
  rw [h1, h2]
  simp

end IW
